import Mathlib

/-!
Verification development for the frame-store-and-relay server (`app.py`).

The server keeps a map `uploaded_frames` from device id to the latest
uploaded frame (stored as a base64 string plus a timestamp), guarded by
`frame_lock`; HTTP handlers `upload_frame`, `get_latest_frame`,
`clear_frames`, `debug_status` operate on it.  A WebSocket relay keeps two
global slots `device1_ws` / `device2_ws` and forwards binary messages
between them.  Bytes are modelled as `List Nat` (each element `< 256`),
Python strings as `String` or `List Char`, the frame map as a function
`String → Option FrameEntry`, and timestamps by an explicit `now : Nat`
parameter.
-/

/-! ### Base64 (models Python `base64.b64encode` / `base64.b64decode`
on standard-alphabet input, which is the only input the server ever
stores: `upload_frame` writes only `b64encode` outputs) -/

def b64Chars : List Char :=
  ['A', 'B', 'C', 'D', 'E', 'F', 'G', 'H', 'I', 'J', 'K', 'L', 'M',
   'N', 'O', 'P', 'Q', 'R', 'S', 'T', 'U', 'V', 'W', 'X', 'Y', 'Z',
   'a', 'b', 'c', 'd', 'e', 'f', 'g', 'h', 'i', 'j', 'k', 'l', 'm',
   'n', 'o', 'p', 'q', 'r', 's', 't', 'u', 'v', 'w', 'x', 'y', 'z',
   '0', '1', '2', '3', '4', '5', '6', '7', '8', '9', '+', '/']

def b64EncodeChar (n : Nat) : Char := b64Chars.getD n 'A'

def b64DecodeChar (c : Char) : Option Nat := b64Chars.indexOf? c

/-- Standard base64 of a byte sequence, three bytes to four characters,
with `=` padding, as produced by `base64.b64encode`. -/
def b64EncodeBytes : List Nat → List Char
  | [] => []
  | [a] => [b64EncodeChar (a / 4), b64EncodeChar (a % 4 * 16), '=', '=']
  | [a, b] => [b64EncodeChar (a / 4), b64EncodeChar (a % 4 * 16 + b / 16),
               b64EncodeChar (b % 16 * 4), '=']
  | a :: b :: c :: rest =>
    b64EncodeChar (a / 4) :: b64EncodeChar (a % 4 * 16 + b / 16) ::
    b64EncodeChar (b % 16 * 4 + c / 64) :: b64EncodeChar (c % 64) ::
    b64EncodeBytes rest

/-- Base64 decoding, four characters to three bytes, `=` padding allowed
only in the final group; `none` models `base64.b64decode` raising
`binascii.Error` (which `get_latest_frame` catches). -/
def b64DecodeChars : List Char → Option (List Nat)
  | [] => some []
  | a :: b :: c :: d :: rest =>
    (b64DecodeChar a).bind fun v1 =>
    (b64DecodeChar b).bind fun v2 =>
    if c = '=' then
      if d = '=' ∧ rest = [] then some [v1 * 4 + v2 / 16] else none
    else
      (b64DecodeChar c).bind fun v3 =>
      if d = '=' then
        if rest = [] then some [v1 * 4 + v2 / 16, v2 % 16 * 16 + v3 / 4]
        else none
      else
        (b64DecodeChar d).bind fun v4 =>
        (b64DecodeChars rest).map fun tail =>
          (v1 * 4 + v2 / 16) :: (v2 % 16 * 16 + v3 / 4) :: (v3 % 4 * 64 + v4) :: tail
  | _ => none

/-! ### FrameStore: the `uploaded_frames` map and its handlers -/

/-- One entry of `uploaded_frames`: a dict `{'frame_data': ..., 'timestamp': ...}`,
where `frame_data` is `None` or a base64 string. -/
structure FrameEntry where
  frame_data : Option (List Char)
  timestamp : Nat
  deriving DecidableEq

/-- The `uploaded_frames` dict: a partial map from device id to entry
(`none` models a key absent from the dict). -/
def Store : Type := String → Option FrameEntry

/-- The module-level initial value of `uploaded_frames`. -/
def initialStore : Store := fun d =>
  if d = "pc1" ∨ d = "pc2" ∨ d = "phone" then some ⟨none, 0⟩ else none

/-- The store mutation performed by `upload_frame` under `frame_lock`:
`uploaded_frames[device_id] = {'frame_data': b64, 'timestamp': time.time()}`. -/
def putStore (device_id : String) (frame_bytes : List Nat) (now : Nat)
    (s : Store) : Store := fun d =>
  if d = device_id then some ⟨some (b64EncodeBytes frame_bytes), now⟩ else s d

/-- The store mutation performed by `clear_frames` under `frame_lock`:
`uploaded_frames[device_id] = {'frame_data': None, 'timestamp': 0}`. -/
def clearStore (device_id : String) (s : Store) : Store := fun d =>
  if d = device_id then some ⟨none, 0⟩ else s d

/-- Peer resolution in `get_latest_frame`: remove the requester from the
list `['pc1', 'pc2', 'phone']` when present, then take the first element
(defaulting to `'pc1'` were the list empty). -/
def resolvePeer (device_id : String) : String :=
  let other_devices : List String := ["pc1", "pc2", "phone"]
  let other_devices :=
    if device_id ∈ other_devices then other_devices.erase device_id
    else other_devices
  other_devices.headD "pc1"

/-- `frame_b64 = uploaded_frames.get(other_device, {}).get('frame_data')`. -/
def frameDataAt (s : Store) (d : String) : Option (List Char) :=
  match s d with
  | none => none
  | some entry => entry.frame_data

/-- An HTTP response carrying bytes, as built by `get_latest_frame`. -/
structure GetResponse where
  body : List Nat
  media : String
  status : Nat
  deriving DecidableEq

/-- A plain-text HTTP response, as built by `upload_frame` / `clear_frames`. -/
structure TextResponse where
  body : String
  status : Nat
  deriving DecidableEq

/-- Python `str.startswith` on character lists (first argument is the
candidate prefix). -/
def startsWithChars : List Char → List Char → Bool
  | [], _ => true
  | _ :: _, [] => false
  | p :: ps, s :: ss => p == s && startsWithChars ps ss

def dataImageMarker : List Char :=
  ['d', 'a', 't', 'a', ':', 'i', 'm', 'a', 'g', 'e']

/-- The body-building part of `get_latest_frame`, after `frame_b64` has been
read under the lock.  `if frame_b64:` is false for `None` and for the empty
string; the `data:image` branch takes `split(',')[1]` (an out-of-range index
raises, caught by the handler's `except`, which serves the black frame);
a `b64decode` failure is likewise caught and serves the black frame. -/
def serveFrame (black : List Nat) (frame_b64 : Option (List Char)) :
    GetResponse :=
  match frame_b64 with
  | some (ch :: restChars) =>
    let fb := ch :: restChars
    if startsWithChars dataImageMarker fb then
      match fb.splitOn ',' with
      | _ :: second :: _ =>
        match b64DecodeChars second with
        | some image_bytes => ⟨image_bytes, "image/jpeg", 200⟩
        | none => ⟨black, "image/jpeg", 200⟩
      | _ => ⟨black, "image/jpeg", 200⟩
    else
      match b64DecodeChars fb with
      | some image_bytes => ⟨image_bytes, "image/jpeg", 200⟩
      | none => ⟨black, "image/jpeg", 200⟩
  | _ => ⟨black, "image/jpeg", 200⟩

/-- `GET /get_latest_frame`.  `black` is the JPEG produced by
`get_black_frame_bytes` (opaque fallback asset, out of core scope, hence a
parameter); `deviceIdParam` is the `device_id` query parameter,
defaulting to `'pc1'` when absent. -/
def get_latest_frame (black : List Nat) (deviceIdParam : Option String)
    (s : Store) : GetResponse :=
  let device_id := deviceIdParam.getD "pc1"
  let other_device := resolvePeer device_id
  serveFrame black (frameDataAt s other_device)

/-- The value bound to the `frame` form field: either a readable file part
(`UploadFile`, with the bytes its `read()` returns) or a plain text field
(a `str`, for which the handler's `bytes(frame_file)` fallback raises
`TypeError`, caught as a 500). -/
inductive FormFrameValue where
  | fileField (content : List Nat)
  | textField (s : String)
  deriving DecidableEq

/-- `POST /upload_frame`: returns the new store and the response.
Checks, in source order: falsy `device_id` → 400; missing `frame` → 400;
reading a text field raises (`bytes(str)` without encoding) → 500;
empty bytes → 400; otherwise store base64 under `frame_lock` and
answer `OK`. -/
def upload_frame (device_id : Option String) (frame : Option FormFrameValue)
    (now : Nat) (s : Store) : Store × TextResponse :=
  match device_id with
  | none => (s, ⟨"Missing device_id", 400⟩)
  | some did =>
    if did = "" then (s, ⟨"Missing device_id", 400⟩)
    else
      match frame with
      | none => (s, ⟨"No frame file", 400⟩)
      | some (FormFrameValue.textField _) => (s, ⟨"ERROR", 500⟩)
      | some (FormFrameValue.fileField frame_bytes) =>
        if frame_bytes = [] then (s, ⟨"Empty frame", 400⟩)
        else (putStore did frame_bytes now s, ⟨"OK", 200⟩)

/-- `GET /clear_frames/{device_id}`: falsy id → 400, otherwise reset the
entry under `frame_lock`. -/
def clear_frames (device_id : Option String) (s : Store) :
    Store × TextResponse :=
  match device_id with
  | none => (s, ⟨"Missing device id", 400⟩)
  | some did =>
    if did = "" then (s, ⟨"Missing device id", 400⟩)
    else (clearStore did s, ⟨"Frames cleared for " ++ did, 200⟩)

/-- Store-mutating operations, for stating "until the next Put or Clear". -/
inductive StoreOp where
  | put (device_id : String) (frame_bytes : List Nat) (now : Nat)
  | clear (device_id : String)

def applyOp (s : Store) : StoreOp → Store
  | StoreOp.put d p now => putStore d p now s
  | StoreOp.clear d => clearStore d s

def applyOps (ops : List StoreOp) (s : Store) : Store :=
  ops.foldl applyOp s

/-- Does an operation mutate device `d`'s entry? -/
def touches (d : String) : StoreOp → Bool
  | StoreOp.put d' _ _ => d' == d
  | StoreOp.clear d' => d' == d

/-! ### AudioRelay: the global slots `device1_ws` / `device2_ws` and the
receive loops `ws_device1` / `ws_device2`.  Live WebSocket objects are
modelled by connection ids (`Nat`); the whole mutable relay state is the
pair of globals — the code keeps no other relay state (in particular no
message buffer). -/

structure RelayState where
  device1_ws : Option Nat
  device2_ws : Option Nat
  deriving DecidableEq

/-- `device1_ws = websocket`, run right after `accept()` in `ws_device1`. -/
def register1 (c : Nat) (s : RelayState) : RelayState :=
  { s with device1_ws := some c }

/-- `device2_ws = websocket`, run right after `accept()` in `ws_device2`. -/
def register2 (c : Nat) (s : RelayState) : RelayState :=
  { s with device2_ws := some c }

/-- The `finally:` block of `ws_device1`, run when connection `c`'s receive
loop terminates: `device1_ws = None`, with no check of which connection
still occupies the slot (the argument `c` identifies the exiting
connection and is not consulted by the code). -/
def cleanup1 (c : Nat) (s : RelayState) : RelayState :=
  { s with device1_ws := none }

/-- The `finally:` block of `ws_device2`: `device2_ws = None`,
unconditionally. -/
def cleanup2 (c : Nat) (s : RelayState) : RelayState :=
  { s with device2_ws := none }

/-- One iteration of `ws_device1`'s receive loop on payload `data`:
`if device2_ws: await device2_ws.send_bytes(data)`.  Returns the
deliveries performed (receiving connection id, payload). -/
def relayMsg1 (s : RelayState) (data : List Nat) : List (Nat × List Nat) :=
  match s.device2_ws with
  | some c => [(c, data)]
  | none => []

/-- One iteration of `ws_device2`'s receive loop. -/
def relayMsg2 (s : RelayState) (data : List Nat) : List (Nat × List Nat) :=
  match s.device1_ws with
  | some c => [(c, data)]
  | none => []

/-- Observable relay events: a connection registering into a slot, a
connection's receive loop terminating, or a binary message arriving on a
slot's current connection. -/
inductive RelayEvent where
  | reg1 (c : Nat)
  | reg2 (c : Nat)
  | end1 (c : Nat)
  | end2 (c : Nat)
  | msg1 (data : List Nat)
  | msg2 (data : List Nat)

/-- Step of the relay: next state plus the deliveries the event causes. -/
def relayStep (s : RelayState) : RelayEvent → RelayState × List (Nat × List Nat)
  | RelayEvent.reg1 c => (register1 c s, [])
  | RelayEvent.reg2 c => (register2 c s, [])
  | RelayEvent.end1 c => (cleanup1 c s, [])
  | RelayEvent.end2 c => (cleanup2 c s, [])
  | RelayEvent.msg1 data => (s, relayMsg1 s data)
  | RelayEvent.msg2 data => (s, relayMsg2 s data)

/-! ### Lock discipline of the FrameStore handlers

Each handler is transcribed as the sequence of its atomic actions on
`frame_lock` and on the shared `uploaded_frames` map, in source order:
`with frame_lock:` contributes an acquire/release bracket, and each
subscripting of `uploaded_frames` contributes one map access. -/

inductive StoreAction where
  | acquire
  | release
  | readEntry (d : String)
  | writeEntry (d : String)

/-- `upload_frame`: one write to `uploaded_frames[device_id]`, inside
`with frame_lock:`. -/
def uploadFrameActions (device_id : String) : List StoreAction :=
  [StoreAction.acquire, StoreAction.writeEntry device_id, StoreAction.release]

/-- `get_latest_frame`: one read `uploaded_frames.get(other_device, {})`,
inside `with frame_lock:`. -/
def getLatestFrameActions (other_device : String) : List StoreAction :=
  [StoreAction.acquire, StoreAction.readEntry other_device,
   StoreAction.release]

/-- `clear_frames`: one write to `uploaded_frames[device_id]`, inside
`with frame_lock:`. -/
def clearFramesActions (device_id : String) : List StoreAction :=
  [StoreAction.acquire, StoreAction.writeEntry device_id, StoreAction.release]

/-- `debug_status`: the dict comprehension reads `frame_data` once and
`timestamp` twice for each of the three devices, with no `with frame_lock:`
anywhere in the handler. -/
def debugStatusActions : List StoreAction :=
  [StoreAction.readEntry "pc1", StoreAction.readEntry "pc1",
   StoreAction.readEntry "pc1",
   StoreAction.readEntry "pc2", StoreAction.readEntry "pc2",
   StoreAction.readEntry "pc2",
   StoreAction.readEntry "phone", StoreAction.readEntry "phone",
   StoreAction.readEntry "phone"]

def allAccessesLockedAux : Nat → List StoreAction → Bool
  | _, [] => true
  | depth, StoreAction.acquire :: rest => allAccessesLockedAux (depth + 1) rest
  | depth, StoreAction.release :: rest => allAccessesLockedAux (depth - 1) rest
  | depth, StoreAction.readEntry _ :: rest =>
    decide (0 < depth) && allAccessesLockedAux depth rest
  | depth, StoreAction.writeEntry _ :: rest =>
    decide (0 < depth) && allAccessesLockedAux depth rest

/-- Is every access to the shared map performed while `frame_lock` is held? -/
def allAccessesLocked (actions : List StoreAction) : Bool :=
  allAccessesLockedAux 0 actions

/-! ### Base64 lemmas -/

theorem b64DecodeChar_encodeChar :
    ∀ n, n < 64 → b64DecodeChar (b64EncodeChar n) = some n := by decide

theorem b64EncodeChar_mem (n : Nat) : b64EncodeChar n ∈ b64Chars := by
  by_cases h : n < 64
  · exact (by decide : ∀ m, m < 64 → b64EncodeChar m ∈ b64Chars) n h
  · have hlen : b64Chars.length ≤ n := by
      have : b64Chars.length = 64 := by decide
      omega
    unfold b64EncodeChar
    rw [List.getD_eq_default _ _ hlen]
    decide

theorem b64EncodeChar_ne_pad (n : Nat) : ¬ b64EncodeChar n = '=' := by
  intro h
  have := b64EncodeChar_mem n
  rw [h] at this
  exact absurd this (by decide)

theorem mem_b64EncodeBytes :
    ∀ (bs : List Nat), ∀ ch ∈ b64EncodeBytes bs, ch ∈ b64Chars ∨ ch = '='
  | [] => by simp [b64EncodeBytes]
  | [a] => by
    intro ch hch
    simp only [b64EncodeBytes, List.mem_cons, List.not_mem_nil, or_false] at hch
    rcases hch with h | h | h | h <;>
      simp [h, b64EncodeChar_mem]
  | [a, b] => by
    intro ch hch
    simp only [b64EncodeBytes, List.mem_cons, List.not_mem_nil, or_false] at hch
    rcases hch with h | h | h | h <;>
      simp [h, b64EncodeChar_mem]
  | a :: b :: c :: rest => by
    intro ch hch
    simp only [b64EncodeBytes, List.mem_cons] at hch
    rcases hch with h | h | h | h | h
    · simp [h, b64EncodeChar_mem]
    · simp [h, b64EncodeChar_mem]
    · simp [h, b64EncodeChar_mem]
    · simp [h, b64EncodeChar_mem]
    · exact mem_b64EncodeBytes rest ch h

theorem startsWithChars_mem :
    ∀ (p s : List Char), startsWithChars p s = true → ∀ c ∈ p, c ∈ s
  | [], _, _ => by simp
  | _ :: _, [], h => by simp [startsWithChars] at h
  | p :: ps, s :: ss, h => by
    simp only [startsWithChars, Bool.and_eq_true, beq_iff_eq] at h
    intro c hc
    rcases List.mem_cons.mp hc with hceq | hcmem
    · simp [hceq, h.1]
    · exact List.mem_cons_of_mem s (startsWithChars_mem ps ss h.2 c hcmem)

theorem b64_not_dataImage (bs : List Nat) :
    startsWithChars dataImageMarker (b64EncodeBytes bs) = false := by
  by_contra h
  rw [Bool.not_eq_false] at h
  have hcolon : ':' ∈ b64EncodeBytes bs :=
    startsWithChars_mem _ _ h ':' (by decide)
  rcases mem_b64EncodeBytes bs ':' hcolon with hmem | heq
  · exact absurd hmem (by decide)
  · exact absurd heq (by decide)

theorem b64_roundtrip :
    ∀ (bs : List Nat), (∀ x ∈ bs, x < 256) →
      b64DecodeChars (b64EncodeBytes bs) = some bs
  | [] => fun _ => by simp [b64EncodeBytes, b64DecodeChars]
  | [a] => fun h => by
    have ha : a < 256 := h a (by simp)
    simp only [b64EncodeBytes, b64DecodeChars,
      b64DecodeChar_encodeChar (a / 4) (by omega),
      b64DecodeChar_encodeChar (a % 4 * 16) (by omega),
      Option.bind]
    simp only [if_pos rfl, and_self, Option.some.injEq, List.cons.injEq,
      and_true, reduceIte]
    omega
  | [a, b] => fun h => by
    have ha : a < 256 := h a (by simp)
    have hb : b < 256 := h b (by simp)
    simp only [b64EncodeBytes, b64DecodeChars,
      b64DecodeChar_encodeChar (a / 4) (by omega),
      b64DecodeChar_encodeChar (a % 4 * 16 + b / 16) (by omega),
      b64DecodeChar_encodeChar (b % 16 * 4) (by omega),
      Option.bind]
    rw [if_neg (b64EncodeChar_ne_pad _)]
    simp only [if_pos rfl, reduceIte, Option.some.injEq, List.cons.injEq,
      and_true]
    constructor <;> omega
  | a :: b :: c :: rest => fun h => by
    have ha : a < 256 := h a (by simp)
    have hb : b < 256 := h b (by simp)
    have hc : c < 256 := h c (by simp)
    have ih := b64_roundtrip rest (fun x hx => h x (by simp [hx]))
    simp only [b64EncodeBytes, b64DecodeChars,
      b64DecodeChar_encodeChar (a / 4) (by omega),
      b64DecodeChar_encodeChar (a % 4 * 16 + b / 16) (by omega),
      b64DecodeChar_encodeChar (b % 16 * 4 + c / 64) (by omega),
      b64DecodeChar_encodeChar (c % 64) (by omega),
      Option.bind]
    rw [if_neg (b64EncodeChar_ne_pad _), if_neg (b64EncodeChar_ne_pad _)]
    rw [ih]
    simp only [Option.map, Option.some.injEq, List.cons.injEq, and_true]
    refine ⟨by omega, by omega, by omega⟩

/-- A non-empty byte sequence encodes to a non-empty base64 string. -/
theorem b64EncodeBytes_ne_nil :
    ∀ (bs : List Nat), bs ≠ [] → b64EncodeBytes bs ≠ []
  | [], h => absurd rfl h
  | [_], _ => by simp [b64EncodeBytes]
  | [_, _], _ => by simp [b64EncodeBytes]
  | _ :: _ :: _ :: _, _ => by simp [b64EncodeBytes]

/-! ### FrameStore lemmas -/

theorem putStore_self (d : String) (p : List Nat) (now : Nat) (s : Store) :
    putStore d p now s d = some ⟨some (b64EncodeBytes p), now⟩ := by
  simp [putStore]

theorem putStore_other (d d' : String) (p : List Nat) (now : Nat) (s : Store)
    (h : d' ≠ d) : putStore d p now s d' = s d' := by
  simp [putStore, h]

theorem clearStore_self (d : String) (s : Store) :
    clearStore d s d = some ⟨none, 0⟩ := by
  simp [clearStore]

theorem clearStore_other (d d' : String) (s : Store) (h : d' ≠ d) :
    clearStore d s d' = s d' := by
  simp [clearStore, h]

/-- Operations that do not touch device `d` leave its entry unchanged. -/
theorem applyOps_untouched (d : String) :
    ∀ (ops : List StoreOp) (s : Store),
      (∀ op ∈ ops, touches d op = false) → applyOps ops s d = s d := by
  intro ops
  induction ops with
  | nil => intro s _; rfl
  | cons op rest ih =>
    intro s h
    have hop : touches d op = false := h op (by simp)
    have hrest : ∀ o ∈ rest, touches d o = false :=
      fun o ho => h o (by simp [ho])
    have hstep : applyOps (op :: rest) s = applyOps rest (applyOp s op) := rfl
    rw [hstep, ih (applyOp s op) hrest]
    cases op with
    | put d' p now =>
      have hne : d ≠ d' := by
        simp only [touches, beq_eq_false_iff_ne, ne_eq] at hop
        exact fun he => hop he.symm
      exact putStore_other d' d p now s hne
    | clear d' =>
      have hne : d ≠ d' := by
        simp only [touches, beq_eq_false_iff_ne, ne_eq] at hop
        exact fun he => hop he.symm
      exact clearStore_other d' d s hne

/-- Every response `serveFrame` builds is a 200 with media type
`image/jpeg`. -/
theorem serveFrame_fields (black : List Nat) (fb : Option (List Char)) :
    (serveFrame black fb).status = 200 ∧
    (serveFrame black fb).media = "image/jpeg" := by
  rcases fb with _ | fbl
  · exact ⟨rfl, rfl⟩
  · rcases fbl with _ | ⟨ch, rest⟩
    · exact ⟨rfl, rfl⟩
    · unfold serveFrame
      dsimp only
      split
      · split
        · split <;> exact ⟨rfl, rfl⟩
        · exact ⟨rfl, rfl⟩
      · split <;> exact ⟨rfl, rfl⟩

/-- Serving a stored `b64encode` output returns exactly the original
bytes. -/
theorem serveFrame_encoded (black : List Nat) (p : List Nat) (hp : p ≠ [])
    (hb : ∀ x ∈ p, x < 256) :
    serveFrame black (some (b64EncodeBytes p)) = ⟨p, "image/jpeg", 200⟩ := by
  cases hE : b64EncodeBytes p with
  | nil => exact absurd hE (b64EncodeBytes_ne_nil p hp)
  | cons ch rest =>
    have hdec : b64DecodeChars (ch :: rest) = some p := by
      rw [← hE]; exact b64_roundtrip p hb
    have hpref : startsWithChars dataImageMarker (ch :: rest) = false := by
      rw [← hE]; exact b64_not_dataImage p
    unfold serveFrame
    simp [hpref, hdec]

/-- The response of `get_latest_frame` is `serveFrame` applied to the
resolved peer's stored base64 value. -/
theorem get_latest_frame_as_serve (black : List Nat) (req : Option String)
    (s : Store) :
    get_latest_frame black req s =
      serveFrame black (frameDataAt s (resolvePeer (req.getD "pc1"))) := rfl

/-- After a `Put` followed by operations not touching `d`, a
`get_latest_frame` resolving to `d` returns exactly the uploaded bytes. -/
theorem getAfterPut (d : String) (p : List Nat) (now : Nat) (s : Store)
    (ops : List StoreOp) (black : List Nat) (req : Option String)
    (hp : p ≠ []) (hbytes : ∀ x ∈ p, x < 256)
    (hops : ∀ op ∈ ops, touches d op = false)
    (hres : resolvePeer (req.getD "pc1") = d) :
    get_latest_frame black req (applyOps ops (putStore d p now s)) =
      ⟨p, "image/jpeg", 200⟩ := by
  rw [get_latest_frame_as_serve, hres]
  have hentry : applyOps ops (putStore d p now s) d =
      some ⟨some (b64EncodeBytes p), now⟩ := by
    rw [applyOps_untouched d ops _ hops, putStore_self]
  simp only [frameDataAt, hentry]
  exact serveFrame_encoded black p hp hbytes

/-! ### Claim theorems -/

/-- C1: For every device id `d` and every non-empty payload `p`, once
`Put(d, p)` (POST `/upload_frame`) has completed, every `GetLatestFor`
call whose peer resolution yields `d` returns exactly `p` byte-for-byte
(the stored base64 encoding decodes back to the uploaded bytes), until
the next `Put(d, ·)` or `Clear(d)`. -/
theorem put_then_get_returns_payload (d : String) (p : List Nat) (now : Nat)
    (s : Store) (ops : List StoreOp) (black : List Nat) (req : Option String)
    (hp : p ≠ []) (hbytes : ∀ x ∈ p, x < 256)
    (hops : ∀ op ∈ ops, touches d op = false)
    (hres : resolvePeer (req.getD "pc1") = d) :
    get_latest_frame black req (applyOps ops (putStore d p now s)) =
      ⟨p, "image/jpeg", 200⟩ :=
  getAfterPut d p now s ops black req hp hbytes hops hres

theorem put_then_get_returns_payload_witness :
    get_latest_frame [] (some "pc1")
        (applyOps [StoreOp.put "phone" [7] 9, StoreOp.clear "phone"]
          (putStore "pc2" [1, 255] 5 initialStore)) =
      ⟨[1, 255], "image/jpeg", 200⟩ :=
  put_then_get_returns_payload "pc2" [1, 255] 5 initialStore
    [StoreOp.put "phone" [7] 9, StoreOp.clear "phone"] [] (some "pc1")
    (by decide) (by decide) (by decide) (by decide)

/-- C2: `upload_frame` returns HTTP 400 exactly when the `device_id` form
field is missing/empty or the `frame` file part is missing or reads as
empty bytes; on any other input it returns 200 with plain-text body `OK`
after storing the frame, and 500 only on an unexpected processing
exception (here: the `bytes(frame_file)` fallback raising on a text-typed
`frame` field). -/
theorem upload_frame_status_spec (did : Option String)
    (frame : Option FormFrameValue) (now : Nat) (s : Store) :
    ((upload_frame did frame now s).2.status = 400 ↔
      (did = none ∨ did = some "" ∨ frame = none ∨
        frame = some (FormFrameValue.fileField []))) ∧
    ((upload_frame did frame now s).2.status = 500 ↔
      (did ≠ none ∧ did ≠ some "" ∧
        ∃ t, frame = some (FormFrameValue.textField t))) ∧
    (∀ d bytes, did = some d → d ≠ "" → bytes ≠ [] →
      frame = some (FormFrameValue.fileField bytes) →
      (upload_frame did frame now s).2 = ⟨"OK", 200⟩ ∧
      (upload_frame did frame now s).1 = putStore d bytes now s) := by
  rcases did with _ | d
  · simp [upload_frame]
  · by_cases hd : d = ""
    · subst hd
      simp only [upload_frame, if_pos rfl]
      refine ⟨by simp, by simp, ?_⟩
      exact fun d1 bytes h1 h2 _ _ => absurd h1.symm (by simpa using h2)
    · rcases frame with _ | f
      · simp [upload_frame, hd]
      · cases f with
        | textField t => simp [upload_frame, hd]
        | fileField bytes =>
          by_cases hb : bytes = []
          · subst hb
            simp [upload_frame, hd]
          · simp only [upload_frame, if_neg hd, if_neg hb]
            refine ⟨by simp [hd, hb], by simp [hd, hb], ?_⟩
            intro d1 bytes1 h1 h2 h3 h4
            have hd1 : d = d1 := by simpa using h1
            have hb1 : bytes = bytes1 := by simpa using h4
            subst hd1
            subst hb1
            simp

theorem upload_frame_status_spec_witness :
    (upload_frame (some "pc1") (some (FormFrameValue.fileField [7, 8])) 3
        initialStore).2 = ⟨"OK", 200⟩ ∧
    (upload_frame (some "pc1") (some (FormFrameValue.fileField [7, 8])) 3
        initialStore).1 = putStore "pc1" [7, 8] 3 initialStore :=
  (upload_frame_status_spec (some "pc1")
      (some (FormFrameValue.fileField [7, 8])) 3 initialStore).2.2
    "pc1" [7, 8] rfl (by decide) (by decide) rfl

/-- C3: For every request, `get_latest_frame` returns HTTP 200 with an
`image/jpeg` body: the resolved peer's stored payload when one is
present, and otherwise (never uploaded, cleared, or any internal
exception, which the handler catches) the fallback black placeholder
image; it never returns an error status. -/
theorem get_latest_frame_always_ok (black : List Nat) (req : Option String)
    (s : Store) :
    (get_latest_frame black req s).status = 200 ∧
    (get_latest_frame black req s).media = "image/jpeg" ∧
    (frameDataAt s (resolvePeer (req.getD "pc1")) = none →
      (get_latest_frame black req s).body = black) := by
  refine ⟨?_, ?_, ?_⟩
  · rw [get_latest_frame_as_serve]
    exact (serveFrame_fields black _).1
  · rw [get_latest_frame_as_serve]
    exact (serveFrame_fields black _).2
  · intro h
    rw [get_latest_frame_as_serve, h]
    rfl

theorem get_latest_frame_always_ok_witness :
    (get_latest_frame [9] (some "pc1") initialStore).status = 200 ∧
    (get_latest_frame [9] (some "pc1") initialStore).body = [9] :=
  ⟨(get_latest_frame_always_ok [9] (some "pc1") initialStore).1,
   (get_latest_frame_always_ok [9] (some "pc1") initialStore).2.2 (by decide)⟩

/-- C4: Peer resolution is a fixed deterministic function of the
requesting device id (the first id remaining in `[pc1, pc2, phone]` after
removing the requester): `pc1 → pc2`, `pc2 → pc1`, `phone → pc1`; and the
frame `get_latest_frame` serves to requester `r` is exactly the one
stored for `resolvePeer r`. -/
theorem peer_resolution_fixed :
    resolvePeer "pc1" = "pc2" ∧ resolvePeer "pc2" = "pc1" ∧
    resolvePeer "phone" = "pc1" ∧
    (∀ (black p : List Nat) (now : Nat) (s : Store) (r : String),
      r ∈ (["pc1", "pc2", "phone"] : List String) → p ≠ [] →
      (∀ x ∈ p, x < 256) →
      get_latest_frame black (some r) (putStore (resolvePeer r) p now s) =
        ⟨p, "image/jpeg", 200⟩) := by
  refine ⟨by decide, by decide, by decide, ?_⟩
  intro black p now s r hr hp hb
  have := getAfterPut (resolvePeer r) p now s [] black (some r) hp hb
    (by simp) rfl
  exact this

theorem peer_resolution_fixed_witness :
    get_latest_frame [] (some "phone")
        (putStore (resolvePeer "phone") [3] 0 initialStore) =
      ⟨[3], "image/jpeg", 200⟩ :=
  peer_resolution_fixed.2.2.2 [] [3] 0 initialStore "phone" (by decide)
    (by decide) (by decide)

/-- C5 counterexample: the claim that a terminating connection unregisters
its slot only if it is still the occupant is false.  Connection 1
registers into the device1 slot after connection 0; when connection 0's
receive loop then terminates, its `finally` block clears the slot anyway,
wiping connection 1's registration. -/
theorem stale_cleanup_clears_newer_registration :
    (1 : Nat) ≠ 0 ∧
    (register1 1 { device1_ws := some 0, device2_ws := none }).device1_ws =
      some 1 ∧
    (cleanup1 0
        (register1 1 { device1_ws := some 0, device2_ws := none })).device1_ws
      ≠ some 1 := by
  refine ⟨by decide, rfl, by decide⟩

/-- C5 amended: when a relay connection's receive loop terminates, its
cleanup unconditionally sets its device slot to `None`, regardless of
which connection currently occupies the slot (so a newer connection's
registration is wiped, not preserved); the other device's slot is
untouched. -/
theorem cleanup_unconditionally_clears (c : Nat) (s : RelayState) :
    (cleanup1 c s).device1_ws = none ∧
    (cleanup1 c s).device2_ws = s.device2_ws ∧
    (cleanup2 c s).device2_ws = none ∧
    (cleanup2 c s).device1_ws = s.device1_ws :=
  ⟨rfl, rfl, rfl, rfl⟩

/-- C6: a binary message received on the device1 connection while no peer
is registered in the device2 slot is dropped: it produces no delivery,
leaves the relay state unchanged (there is no queue or buffer to hold
it), and — since every delivery any step produces carries exactly the
payload of that step's own message event — it is never delivered to a
peer that registers afterward. -/
theorem unpaired_message_dropped (s : RelayState) (data : List Nat)
    (h : s.device2_ws = none) :
    relayStep s (RelayEvent.msg1 data) = (s, []) ∧
    (∀ (s' : RelayState) (e : RelayEvent) (c : Nat) (payload : List Nat),
      (c, payload) ∈ (relayStep s' e).2 →
      e = RelayEvent.msg1 payload ∨ e = RelayEvent.msg2 payload) := by
  constructor
  · simp [relayStep, relayMsg1, h]
  · intro s' e c payload hmem
    cases e with
    | reg1 c' => simp [relayStep] at hmem
    | reg2 c' => simp [relayStep] at hmem
    | end1 c' => simp [relayStep] at hmem
    | end2 c' => simp [relayStep] at hmem
    | msg1 d =>
      left
      simp only [relayStep, relayMsg1] at hmem
      cases hd : s'.device2_ws with
      | none => rw [hd] at hmem; simp at hmem
      | some c2 =>
        rw [hd] at hmem
        simp only [List.mem_singleton, Prod.mk.injEq] at hmem
        rw [hmem.2]
    | msg2 d =>
      right
      simp only [relayStep, relayMsg2] at hmem
      cases hd : s'.device1_ws with
      | none => rw [hd] at hmem; simp at hmem
      | some c1 =>
        rw [hd] at hmem
        simp only [List.mem_singleton, Prod.mk.injEq] at hmem
        rw [hmem.2]

theorem unpaired_message_dropped_witness :
    relayStep { device1_ws := some 4, device2_ws := none }
        (RelayEvent.msg1 [1, 2, 3]) =
      ({ device1_ws := some 4, device2_ws := none }, []) :=
  (unpaired_message_dropped { device1_ws := some 4, device2_ws := none }
    [1, 2, 3] rfl).1

/-- C7: `GET /clear_frames/{device_id}` resets `d`'s store entry to no
payload and zero timestamp, and a `get_latest_frame` issued after the
clear whose resolution yields `d` returns the fallback placeholder
image, not the pre-clear payload. -/
theorem clear_then_get_returns_fallback (d : String) (s : Store)
    (black : List Nat) (req : Option String) (hd : d ≠ "")
    (hres : resolvePeer (req.getD "pc1") = d) :
    (clear_frames (some d) s).1 d = some ⟨none, 0⟩ ∧
    get_latest_frame black req (clear_frames (some d) s).1 =
      ⟨black, "image/jpeg", 200⟩ := by
  have hcf : (clear_frames (some d) s).1 = clearStore d s := by
    simp [clear_frames, hd]
  constructor
  · rw [hcf]
    exact clearStore_self d s
  · rw [hcf, get_latest_frame_as_serve, hres]
    have : frameDataAt (clearStore d s) d = none := by
      simp [frameDataAt, clearStore_self d s]
    rw [this]
    rfl

theorem clear_then_get_returns_fallback_witness :
    (clear_frames (some "pc2")
        (putStore "pc2" [1, 2] 7 initialStore)).1 "pc2" = some ⟨none, 0⟩ ∧
    get_latest_frame [0] (some "pc1")
        (clear_frames (some "pc2") (putStore "pc2" [1, 2] 7 initialStore)).1 =
      ⟨[0], "image/jpeg", 200⟩ :=
  clear_then_get_returns_fallback "pc2" (putStore "pc2" [1, 2] 7 initialStore)
    [0] (some "pc1") (by decide) (by decide)

/-- C8: for distinct device ids `d ≠ d'`, the store mutations of
`upload_frame` and `clear_frames` for device `d` leave device `d'`'s
entry (payload and timestamp alike) unchanged. -/
theorem put_clear_other_device_unchanged (d d' : String) (p : List Nat)
    (now : Nat) (s : Store) (h : d ≠ d') :
    putStore d p now s d' = s d' ∧ clearStore d s d' = s d' :=
  ⟨putStore_other d d' p now s (Ne.symm h),
   clearStore_other d d' s (Ne.symm h)⟩

theorem put_clear_other_device_unchanged_witness :
    putStore "pc1" [5] 2 initialStore "pc2" = initialStore "pc2" ∧
    clearStore "pc1" initialStore "pc2" = initialStore "pc2" :=
  put_clear_other_device_unchanged "pc1" "pc2" [5] 2 initialStore (by decide)

/-- C9 counterexample: not every read of the shared frame map happens
under `frame_lock` — the `debug_status` handler (operation `Status`)
reads every device's entry without acquiring the lock. -/
theorem debug_status_reads_unlocked :
    allAccessesLocked debugStatusActions = false := by decide

/-- C9 amended: `upload_frame`, `get_latest_frame` and `clear_frames`
perform every access to the shared frame map while holding `frame_lock`,
but `debug_status` (the `Status` operation) reads the map without
acquiring the lock. -/
theorem lock_discipline (d other : String) :
    allAccessesLocked (uploadFrameActions d) = true ∧
    allAccessesLocked (getLatestFrameActions other) = true ∧
    allAccessesLocked (clearFramesActions d) = true ∧
    allAccessesLocked debugStatusActions = false :=
  ⟨rfl, rfl, rfl, rfl⟩

/-- C10: `get_latest_frame` is total over arbitrary `device_id` query
values: an absent parameter is treated as `pc1` (so `pc2`'s frame is
served), and a value outside `{pc1, pc2, phone}` is not removed from the
peer list, so `pc1`'s frame is served; in both cases the response is
still a 200 with media type `image/jpeg`. -/
theorem get_latest_frame_total (black p : List Nat) (now : Nat) (s : Store)
    (r : String) (hr : r ∉ (["pc1", "pc2", "phone"] : List String))
    (hp : p ≠ []) (hb : ∀ x ∈ p, x < 256) :
    resolvePeer r = "pc1" ∧
    get_latest_frame black none (putStore "pc2" p now s) =
      ⟨p, "image/jpeg", 200⟩ ∧
    get_latest_frame black (some r) (putStore "pc1" p now s) =
      ⟨p, "image/jpeg", 200⟩ ∧
    (get_latest_frame black none s).status = 200 ∧
    (get_latest_frame black none s).media = "image/jpeg" ∧
    (get_latest_frame black (some r) s).status = 200 ∧
    (get_latest_frame black (some r) s).media = "image/jpeg" := by
  have hres : resolvePeer r = "pc1" := by
    unfold resolvePeer
    simp only [if_neg hr]
    rfl
  refine ⟨hres, ?_, ?_, ?_, ?_, ?_, ?_⟩
  · exact getAfterPut "pc2" p now s [] black none hp hb (by simp) (by decide)
  · exact getAfterPut "pc1" p now s [] black (some r) hp hb (by simp)
      (by simpa using hres)
  · rw [get_latest_frame_as_serve]
    exact (serveFrame_fields black _).1
  · rw [get_latest_frame_as_serve]
    exact (serveFrame_fields black _).2
  · rw [get_latest_frame_as_serve]
    exact (serveFrame_fields black _).1
  · rw [get_latest_frame_as_serve]
    exact (serveFrame_fields black _).2

theorem get_latest_frame_total_witness :
    resolvePeer "tablet" = "pc1" ∧
    get_latest_frame [] none (putStore "pc2" [6] 1 initialStore) =
      ⟨[6], "image/jpeg", 200⟩ ∧
    get_latest_frame [] (some "tablet") (putStore "pc1" [6] 1 initialStore) =
      ⟨[6], "image/jpeg", 200⟩ ∧
    (get_latest_frame [] none initialStore).status = 200 ∧
    (get_latest_frame [] none initialStore).media = "image/jpeg" ∧
    (get_latest_frame [] (some "tablet") initialStore).status = 200 ∧
    (get_latest_frame [] (some "tablet") initialStore).media = "image/jpeg" :=
  get_latest_frame_total [] [6] 1 initialStore "tablet" (by decide)
    (by decide) (by decide)
